import Mathlib

/-!
Verification of the F1-Analytics dashboard's data-shaping pipeline.

The repository is a Streamlit dashboard over the fastf1 API.  The pandas
dataframes are embedded as Lean lists of records: lap-time / sector-time
columns become `Option ℚ` fields (a `none` models a pandas `NaT`/`NaN`),
`dropna` becomes `filter` / `filterMap`, and the column-wise `.min()` of a
pandas series becomes a fold with `min` over the corresponding list.
-/

/-- One row of a session's lap table (`session.laps`).  Fields mirror the
columns the analysed pages read: `Driver`, `LapNumber`, `Sector1Time`,
`Sector2Time`, `Sector3Time`, `LapTime`, `PitInTime`, `PitOutTime`,
`Position`.  Durations and positions are rationals; `none` models a
missing (`NaT`/`NaN`) value. -/
structure Lap where
  driver : String
  lapNumber : Nat
  sector1 : Option ℚ
  sector2 : Option ℚ
  sector3 : Option ℚ
  lapTime : Option ℚ
  pitInTime : Option ℚ
  pitOutTime : Option ℚ
  position : Option ℚ
deriving DecidableEq

/-- A lap that survived
`dropna(subset=["Sector1Time","Sector2Time","Sector3Time"])` followed by the
timedelta→seconds conversion in `prepare_heatmap_data`
(pages/2_Sector_Performance_Heatmap.py): all three sector durations are
present, as the plain rationals `s1`,`s2`,`s3` (the `S1_seconds` …
`S3_seconds` columns). -/
structure ValidLap where
  lapNumber : Nat
  s1 : ℚ
  s2 : ℚ
  s3 : ℚ
  lapTime : Option ℚ
deriving DecidableEq

/-- The dropna + conversion step of `prepare_heatmap_data`: keep exactly the
laps whose three sector times are all present.  (The second `dropna` on the
converted seconds columns in the source is vacuous here because
`timedelta_to_seconds` only fails on missing values, which the first
`dropna` already removed.) -/
def toValidLap (l : Lap) : Option ValidLap :=
  match l.sector1, l.sector2, l.sector3 with
  | some a, some b, some c => some ⟨l.lapNumber, a, b, c, l.lapTime⟩
  | _, _, _ => none

/-- `valid_laps` of `prepare_heatmap_data`. -/
def validLaps (laps : List Lap) : List ValidLap :=
  laps.filterMap toValidLap

/-- `laps_data.pick_drivers(driver)` when a driver is given, the whole table
otherwise (the `if driver:` guard at the top of `prepare_heatmap_data`). -/
def pickDrivers (laps : List Lap) (driver : Option String) : List Lap :=
  match driver with
  | some d => laps.filter (fun l => decide (l.driver = d))
  | none => laps

/-- Minimum of a list of rationals, `none` on the empty list — the pandas
`Series.min()` over a column. -/
def listMin : List ℚ → Option ℚ
  | [] => none
  | x :: xs => some (xs.foldl min x)

/-- The three per-sector benchmarks `s1_benchmark`, `s2_benchmark`,
`s3_benchmark` of `prepare_heatmap_data`: column-wise minima over the valid
laps. -/
def sectorBenchmarks (vl : List ValidLap) : Option (ℚ × ℚ × ℚ) :=
  match listMin (vl.map (·.s1)), listMin (vl.map (·.s2)), listMin (vl.map (·.s3)) with
  | some b1, some b2, some b3 => some (b1, b2, b3)
  | _, _, _ => none

/-- `prepare_heatmap_data(laps_data, driver)`
(pages/2_Sector_Performance_Heatmap.py, lines 115–157): pick the driver's
laps, drop laps missing any sector time, and return `none` (the source's
`(None, None)`) when nothing is left; otherwise return the lap-indexed grid
of per-sector deltas (lap's sector time minus the driver's minimum over the
valid laps) together with the valid-lap table. -/
def prepare_heatmap_data (laps : List Lap) (driver : Option String) :
    Option (List (Nat × ℚ × ℚ × ℚ) × List ValidLap) :=
  match sectorBenchmarks (validLaps (pickDrivers laps driver)) with
  | none => none
  | some (b1, b2, b3) =>
      some ((validLaps (pickDrivers laps driver)).map
          (fun l => (l.lapNumber, l.s1 - b1, l.s2 - b2, l.s3 - b3)),
        validLaps (pickDrivers laps driver))

/-- `theoretical_best`
(pages/2_Sector_Performance_Heatmap.py, lines 321–325): the sum of the three
per-sector minima of the valid-lap table. -/
def theoretical_best (vl : List ValidLap) : Option ℚ :=
  match sectorBenchmarks vl with
  | some (b1, b2, b3) => some (b1 + b2 + b3)
  | none => none

/-- `valid_laps["LapTime"].dropna() … .min()` — the smallest recorded lap
time among the valid laps (the value at the source's `idxmin`). -/
def bestLapTime (vl : List ValidLap) : Option ℚ :=
  listMin (vl.filterMap (·.lapTime))

/-- The three-lap example session of the spec: one driver, laps with sector
times (30,40,30), (29,41,31), (31,39,29). -/
def exThreeLaps : List Lap :=
  [ ⟨"VER", 1, some 30, some 40, some 30, none, none, none, none⟩,
    ⟨"VER", 2, some 29, some 41, some 31, none, none, none, none⟩,
    ⟨"VER", 3, some 31, some 39, some 29, none, none, none, none⟩ ]

/-- C1: on the three-lap example with sector times (30,40,30), (29,41,31),
(31,39,29), `prepare_heatmap_data` yields sector minima (29,39,29), the
per-lap delta grid (1,1,1), (0,2,2), (2,0,0), and the theoretical best lap
time is 97. -/
theorem claim1_heatmap_example :
    prepare_heatmap_data exThreeLaps (some "VER") =
      some ([(1, 1, 1, 1), (2, 0, 2, 2), (3, 2, 0, 0)],
            [⟨1, 30, 40, 30, none⟩, ⟨2, 29, 41, 31, none⟩, ⟨3, 31, 39, 29, none⟩]) ∧
    sectorBenchmarks (validLaps (pickDrivers exThreeLaps (some "VER"))) =
      some (29, 39, 29) ∧
    theoretical_best (validLaps (pickDrivers exThreeLaps (some "VER"))) = some 97 := by
  refine ⟨?_, ?_, ?_⟩ <;>
  · simp only [prepare_heatmap_data, validLaps, pickDrivers, toValidLap, sectorBenchmarks,
      listMin, theoretical_best, exThreeLaps, List.filter, List.filterMap, List.map,
      List.foldl, min_def]
    norm_num

/-! ### Helper lemmas about the column minimum -/

theorem foldl_min_le_init (xs : List ℚ) (x : ℚ) : xs.foldl min x ≤ x := by
  induction xs generalizing x with
  | nil => exact le_refl x
  | cons a t ih =>
    exact le_trans (ih (min x a)) (min_le_left x a)

theorem foldl_min_le_mem (xs : List ℚ) (x y : ℚ) (hy : y ∈ xs) :
    xs.foldl min x ≤ y := by
  induction xs generalizing x with
  | nil => cases hy
  | cons a t ih =>
    rcases List.mem_cons.mp hy with h | h
    · subst h
      exact le_trans (foldl_min_le_init t (min x y)) (min_le_right x y)
    · exact ih (min x a) h

theorem foldl_min_eq_or_mem (xs : List ℚ) (x : ℚ) :
    xs.foldl min x = x ∨ xs.foldl min x ∈ xs := by
  induction xs generalizing x with
  | nil => exact Or.inl rfl
  | cons a t ih =>
    rcases ih (min x a) with h | h
    · rcases min_choice x a with he | he
      · exact Or.inl (by rw [List.foldl_cons, h, he])
      · exact Or.inr (by rw [List.foldl_cons, h, he]; exact List.mem_cons_self a t)
    · exact Or.inr (List.mem_cons_of_mem a h)

theorem listMin_le (xs : List ℚ) (y : ℚ) (h : listMin xs = some y) :
    ∀ z ∈ xs, y ≤ z := by
  cases xs with
  | nil => cases h
  | cons x t =>
    intro z hz
    have hy : y = t.foldl min x := by
      simpa [listMin] using h.symm
    subst hy
    rcases List.mem_cons.mp hz with h | h
    · subst h; exact foldl_min_le_init t z
    · exact foldl_min_le_mem t x z h

theorem listMin_mem (xs : List ℚ) (y : ℚ) (h : listMin xs = some y) : y ∈ xs := by
  cases xs with
  | nil => cases h
  | cons x t =>
    have hy : y = t.foldl min x := by
      simpa [listMin] using h.symm
    subst hy
    rcases foldl_min_eq_or_mem t x with h | h
    · rw [h]; exact List.mem_cons_self x t
    · exact List.mem_cons_of_mem x h

theorem sectorBenchmarks_eq (vl : List ValidLap) (b1 b2 b3 : ℚ)
    (h : sectorBenchmarks vl = some (b1, b2, b3)) :
    listMin (vl.map (·.s1)) = some b1 ∧ listMin (vl.map (·.s2)) = some b2 ∧
      listMin (vl.map (·.s3)) = some b3 := by
  unfold sectorBenchmarks at h
  cases h1 : listMin (vl.map (·.s1)) with
  | none => rw [h1] at h; cases h
  | some c1 =>
    cases h2 : listMin (vl.map (·.s2)) with
    | none => rw [h1, h2] at h; cases h
    | some c2 =>
      cases h3 : listMin (vl.map (·.s3)) with
      | none => rw [h1, h2, h3] at h; cases h
      | some c3 =>
        rw [h1, h2, h3] at h
        obtain ⟨rfl, rfl, rfl⟩ :c1 = b1 ∧ c2 = b2 ∧ c3 = b3 := by
          simpa using h
        exact ⟨rfl, rfl, rfl⟩

/-- A session with a tie: the driver posts the same sector-1 time on both
laps, so two laps are sector-1 personal bests at once. -/
def exTieLaps : List Lap :=
  [ ⟨"ALO", 1, some 30, some 40, some 30, none, none, none, none⟩,
    ⟨"ALO", 2, some 30, some 41, some 31, none, none, none, none⟩ ]

/-- C2 (counterexample): on `exTieLaps` the driver has valid laps, yet the
sector-1 column of the grid produced by `prepare_heatmap_data` contains two
zero deltas, not exactly one — the "exactly one lap per sector has delta 0"
part of the claim is false when sector minima are tied. -/
theorem claim2_counterexample :
    (prepare_heatmap_data exTieLaps (some "ALO")).map
        (fun p => p.1.countP (fun r => decide (r.2.1 = 0))) = some 2 ∧
    ¬ (prepare_heatmap_data exTieLaps (some "ALO")).map
        (fun p => p.1.countP (fun r => decide (r.2.1 = 0))) = some 1 := by
  have h : prepare_heatmap_data exTieLaps (some "ALO") =
      some ([(1, 0, 0, 0), (2, 0, 1, 1)],
            [⟨1, 30, 40, 30, none⟩, ⟨2, 30, 41, 31, none⟩]) := by
    simp only [prepare_heatmap_data, validLaps, pickDrivers, toValidLap, sectorBenchmarks,
      listMin, exTieLaps, List.filter, List.filterMap, List.map, List.foldl, min_def]
    norm_num
  rw [h]
  refine ⟨?_, ?_⟩ <;> simp [List.countP, List.countP.go]

/-- C2 (amended): whenever `prepare_heatmap_data` returns a grid, every
per-lap sector delta is ≥ 0, and in each of the three sectors at least one
lap has a delta of 0 (with ties, several laps may share it). -/
theorem claim2_deltas_nonneg_and_zero_attained
    (laps : List Lap) (driver : Option String)
    (grid : List (Nat × ℚ × ℚ × ℚ)) (vl : List ValidLap)
    (h : prepare_heatmap_data laps driver = some (grid, vl)) :
    (∀ r ∈ grid, 0 ≤ r.2.1 ∧ 0 ≤ r.2.2.1 ∧ 0 ≤ r.2.2.2) ∧
    (∃ r ∈ grid, r.2.1 = 0) ∧ (∃ r ∈ grid, r.2.2.1 = 0) ∧
    (∃ r ∈ grid, r.2.2.2 = 0) := by
  unfold prepare_heatmap_data at h
  cases hb : sectorBenchmarks (validLaps (pickDrivers laps driver)) with
  | none => rw [hb] at h; cases h
  | some b =>
    obtain ⟨b1, b2, b3⟩ := b
    rw [hb] at h
    obtain ⟨hgrid, hvl⟩ : (validLaps (pickDrivers laps driver)).map
        (fun l => (l.lapNumber, l.s1 - b1, l.s2 - b2, l.s3 - b3)) = grid ∧
        validLaps (pickDrivers laps driver) = vl := by
      simpa using h
    obtain ⟨hm1, hm2, hm3⟩ := sectorBenchmarks_eq _ _ _ _ hb
    constructor
    · intro r hr
      rw [← hgrid] at hr
      obtain ⟨l, hl, rfl⟩ := List.mem_map.mp hr
      refine ⟨?_, ?_, ?_⟩ <;> simp only [] <;> rw [sub_nonneg]
      · exact listMin_le _ _ hm1 l.s1 (List.mem_map_of_mem _ hl)
      · exact listMin_le _ _ hm2 l.s2 (List.mem_map_of_mem _ hl)
      · exact listMin_le _ _ hm3 l.s3 (List.mem_map_of_mem _ hl)
    · refine ⟨?_, ?_, ?_⟩
      · obtain ⟨l, hl, he⟩ := List.mem_map.mp (listMin_mem _ _ hm1)
        exact ⟨(l.lapNumber, l.s1 - b1, l.s2 - b2, l.s3 - b3),
          by rw [← hgrid]; exact List.mem_map_of_mem _ hl, by simp [he]⟩
      · obtain ⟨l, hl, he⟩ := List.mem_map.mp (listMin_mem _ _ hm2)
        exact ⟨(l.lapNumber, l.s1 - b1, l.s2 - b2, l.s3 - b3),
          by rw [← hgrid]; exact List.mem_map_of_mem _ hl, by simp [he]⟩
      · obtain ⟨l, hl, he⟩ := List.mem_map.mp (listMin_mem _ _ hm3)
        exact ⟨(l.lapNumber, l.s1 - b1, l.s2 - b2, l.s3 - b3),
          by rw [← hgrid]; exact List.mem_map_of_mem _ hl, by simp [he]⟩

/-- C2 (witness): the amended theorem applied to the three-lap example
session. -/
theorem claim2_witness :
    (∀ r ∈ [((1:Nat), (1:ℚ), (1:ℚ), (1:ℚ)), (2, 0, 2, 2), (3, 2, 0, 0)],
        0 ≤ r.2.1 ∧ 0 ≤ r.2.2.1 ∧ 0 ≤ r.2.2.2) ∧
    (∃ r ∈ [((1:Nat), (1:ℚ), (1:ℚ), (1:ℚ)), (2, 0, 2, 2), (3, 2, 0, 0)], r.2.1 = 0) ∧
    (∃ r ∈ [((1:Nat), (1:ℚ), (1:ℚ), (1:ℚ)), (2, 0, 2, 2), (3, 2, 0, 0)], r.2.2.1 = 0) ∧
    (∃ r ∈ [((1:Nat), (1:ℚ), (1:ℚ), (1:ℚ)), (2, 0, 2, 2), (3, 2, 0, 0)], r.2.2.2 = 0) := by
  refine claim2_deltas_nonneg_and_zero_attained exThreeLaps (some "VER") _
    [⟨1, 30, 40, 30, none⟩, ⟨2, 29, 41, 31, none⟩, ⟨3, 31, 39, 29, none⟩] ?_
  simp only [prepare_heatmap_data, validLaps, pickDrivers, toValidLap, sectorBenchmarks,
    listMin, exThreeLaps, List.filter, List.filterMap, List.map, List.foldl, min_def]
  norm_num

/-- C3: whenever `prepare_heatmap_data` returns a valid-lap table, each
recorded lap time equals the sum of the lap's three sector times, and some
valid lap has a recorded lap time, the page's theoretical best lap time
equals the sum of the three per-sector minima and is at most the smallest
recorded lap time among the valid laps. -/
theorem claim3_theoretical_best_le_best_lap
    (laps : List Lap) (driver : Option String)
    (grid : List (Nat × ℚ × ℚ × ℚ)) (vl : List ValidLap) (bl : ℚ)
    (hp : prepare_heatmap_data laps driver = some (grid, vl))
    (hsum : vl.all (fun l =>
      match l.lapTime with
      | some t => decide (t = l.s1 + l.s2 + l.s3)
      | none => true) = true)
    (hbl : bestLapTime vl = some bl) :
    ∃ b1 b2 b3, sectorBenchmarks vl = some (b1, b2, b3) ∧
      theoretical_best vl = some (b1 + b2 + b3) ∧ b1 + b2 + b3 ≤ bl := by
  unfold prepare_heatmap_data at hp
  cases hb : sectorBenchmarks (validLaps (pickDrivers laps driver)) with
  | none => rw [hb] at hp; cases hp
  | some b =>
    obtain ⟨b1, b2, b3⟩ := b
    rw [hb] at hp
    obtain ⟨hgrid, hvl⟩ : (validLaps (pickDrivers laps driver)).map
        (fun l => (l.lapNumber, l.s1 - b1, l.s2 - b2, l.s3 - b3)) = grid ∧
        validLaps (pickDrivers laps driver) = vl := by
      simpa using hp
    subst hvl
    refine ⟨b1, b2, b3, hb, ?_, ?_⟩
    · unfold theoretical_best
      rw [hb]
    · have hmem := listMin_mem _ _ (by simpa [bestLapTime] using hbl)
      obtain ⟨l, hl, hlt⟩ := List.mem_filterMap.mp hmem
      have hsum2 := List.all_eq_true.mp hsum l hl
      rw [hlt] at hsum2
      have heq : bl = l.s1 + l.s2 + l.s3 := of_decide_eq_true hsum2
      obtain ⟨hm1, hm2, hm3⟩ := sectorBenchmarks_eq _ _ _ _ hb
      have h1 : b1 ≤ l.s1 := listMin_le _ _ hm1 l.s1 (List.mem_map_of_mem _ hl)
      have h2 : b2 ≤ l.s2 := listMin_le _ _ hm2 l.s2 (List.mem_map_of_mem _ hl)
      have h3 : b3 ≤ l.s3 := listMin_le _ _ hm3 l.s3 (List.mem_map_of_mem _ hl)
      rw [heq]
      exact add_le_add (add_le_add h1 h2) h3

/-- The three-lap example session with recorded lap times equal to the sum
of the sector times (100, 101, 99). -/
def exThreeLapsTimed : List Lap :=
  [ ⟨"VER", 1, some 30, some 40, some 30, some 100, none, none, none⟩,
    ⟨"VER", 2, some 29, some 41, some 31, some 101, none, none, none⟩,
    ⟨"VER", 3, some 31, some 39, some 29, some 99, none, none, none⟩ ]

/-- C3 (witness): the theorem applied to the timed three-lap example, whose
best recorded lap time is 99. -/
theorem claim3_witness :
    ∃ b1 b2 b3,
      sectorBenchmarks [⟨1, 30, 40, 30, some 100⟩, ⟨2, 29, 41, 31, some 101⟩,
        ⟨3, 31, 39, 29, some 99⟩] = some (b1, b2, b3) ∧
      theoretical_best [⟨1, 30, 40, 30, some 100⟩, ⟨2, 29, 41, 31, some 101⟩,
        ⟨3, 31, 39, 29, some 99⟩] = some (b1 + b2 + b3) ∧
      b1 + b2 + b3 ≤ 99 := by
  refine claim3_theoretical_best_le_best_lap exThreeLapsTimed (some "VER")
    [(1, 1, 1, 1), (2, 0, 2, 2), (3, 2, 0, 0)]
    [⟨1, 30, 40, 30, some 100⟩, ⟨2, 29, 41, 31, some 101⟩, ⟨3, 31, 39, 29, some 99⟩]
    99 ?_ ?_ ?_
  · simp only [prepare_heatmap_data, validLaps, pickDrivers, toValidLap, sectorBenchmarks,
      listMin, exThreeLapsTimed, List.filter, List.filterMap, List.map, List.foldl, min_def]
    norm_num
  · simp only [List.all, Bool.and_eq_true, decide_eq_true_eq]
    norm_num
  · simp only [bestLapTime, listMin, List.filterMap, List.foldl, min_def]
    norm_num

/-! ### Position & Overtake Insights (pages/4, `process_speed_data`) -/

/-- `driver_laps[["LapNumber","Position"]].dropna()` restricted to the
positions column: the lap-ordered sequence of the driver's non-null
positions (`LapNumber` is always present in the embedding). -/
def positionSeq (laps : List Lap) (d : String) : List ℚ :=
  (laps.filter (fun l => decide (l.driver = d))).filterMap (·.position)

/-- The overtake-counting loop of `process_speed_data`
(pages/4_Position_&_Overtake_Insights.py, lines 96–100): one count for each
adjacent pair whose position strictly decreases. -/
def countDecreases : List ℚ → Nat
  | a :: b :: rest => (if b < a then 1 else 0) + countDecreases (b :: rest)
  | _ => 0

/-- `overtakes` of `process_speed_data`: the loop only runs when the driver
has more than one position record (lines 88–100). -/
def overtakes (positions : List ℚ) : Nat :=
  if 1 < positions.length then countDecreases positions else 0

/-- `positions_gained` of `process_speed_data` (lines 89–94):
`max(0, start_pos - end_pos)` when there is more than one position record,
`0` otherwise. -/
def positions_gained (positions : List ℚ) : ℚ :=
  if 1 < positions.length then max 0 (positions.headD 0 - positions.getLastD 0) else 0

/-- The per-driver `Overtakes` entry of `process_speed_data`. -/
def driverOvertakes (laps : List Lap) (d : String) : Nat :=
  overtakes (positionSeq laps d)

/-- The per-driver `PositionsGained` entry of `process_speed_data`. -/
def driverPositionsGained (laps : List Lap) (d : String) : ℚ :=
  positions_gained (positionSeq laps d)

/-- The claim's wording of the overtake count: the number of consecutive
pairs of the position sequence whose second entry is strictly smaller. -/
def pairDecreaseCount (ps : List ℚ) : Nat :=
  (ps.zip ps.tail).countP (fun p => decide (p.2 < p.1))

theorem countDecreases_eq_pairCount (ps : List ℚ) :
    countDecreases ps = pairDecreaseCount ps := by
  induction ps with
  | nil => rfl
  | cons a rest ih =>
    cases rest with
    | nil => rfl
    | cons b rest2 =>
      show (if b < a then 1 else 0) + countDecreases (b :: rest2) = _
      rw [ih]
      show _ = ((a, b) :: (b :: rest2).zip rest2).countP _
      rw [List.countP_cons]
      have : (b :: rest2).zip rest2 = (b :: rest2).zip (b :: rest2).tail := rfl
      rw [this]
      unfold pairDecreaseCount
      rcases lt_or_le b a with h | h
      · simp [h, Nat.add_comm]
      · simp [not_lt.mpr h]

theorem overtakes_eq_countDecreases (ps : List ℚ) :
    overtakes ps = countDecreases ps := by
  match ps with
  | [] => rfl
  | [a] => rfl
  | a :: b :: rest =>
    unfold overtakes
    rw [if_pos]
    simp [List.length_cons]

theorem countDecreases_le_append (l t : List ℚ) :
    countDecreases l ≤ countDecreases (l ++ t) := by
  induction l with
  | nil => exact Nat.zero_le _
  | cons a rest ih =>
    cases rest with
    | nil => exact Nat.zero_le _
    | cons b rest2 =>
      show (if b < a then 1 else 0) + countDecreases (b :: rest2) ≤
        (if b < a then 1 else 0) + countDecreases ((b :: rest2) ++ t)
      exact Nat.add_le_add_left ih _

theorem positionSeq_take_append (laps : List Lap) (d : String) (k : Nat) :
    positionSeq laps d = positionSeq (laps.take k) d ++ positionSeq (laps.drop k) d := by
  unfold positionSeq
  conv_lhs => rw [← List.take_append_drop k laps]
  rw [List.filter_append, List.filterMap_append]

/-- C4: the overtake count of `process_speed_data` equals the number of
consecutive pairs of the driver's lap-ordered non-null position sequence
whose position strictly decreases, and it is monotone: including a longer
prefix of the lap sequence never lowers the count. -/
theorem claim4_overtakes_pair_count_and_monotone
    (laps : List Lap) (d : String) (k m : Nat) (hkm : k ≤ m) :
    driverOvertakes laps d = pairDecreaseCount (positionSeq laps d) ∧
    driverOvertakes (laps.take k) d ≤ driverOvertakes (laps.take m) d := by
  constructor
  · unfold driverOvertakes
    rw [overtakes_eq_countDecreases, countDecreases_eq_pairCount]
  · unfold driverOvertakes
    rw [overtakes_eq_countDecreases, overtakes_eq_countDecreases]
    have htk : laps.take k = (laps.take m).take k := by
      rw [List.take_take, Nat.min_eq_left hkm]
    rw [htk, positionSeq_take_append (laps.take m) d k]
    exact countDecreases_le_append _ _

/-- A four-lap position history for one driver: 5 → 3 → 4 → 2. -/
def exPositionLaps : List Lap :=
  [ ⟨"HAM", 1, none, none, none, none, none, none, some 5⟩,
    ⟨"HAM", 2, none, none, none, none, none, none, some 3⟩,
    ⟨"HAM", 3, none, none, none, none, none, none, some 4⟩,
    ⟨"HAM", 4, none, none, none, none, none, none, some 2⟩ ]

/-- A lap table whose only row has no recorded position. -/
def exNoPositionLap : List Lap :=
  [ ⟨"HAM", 1, none, none, none, none, none, none, none⟩ ]

/-- C4 (witness): the theorem applied to the 5 → 3 → 4 → 2 position
history, with the two-lap prefix against the full four laps. -/
theorem claim4_witness :
    driverOvertakes exPositionLaps "HAM" =
      pairDecreaseCount (positionSeq exPositionLaps "HAM") ∧
    driverOvertakes (exPositionLaps.take 2) "HAM" ≤
      driverOvertakes (exPositionLaps.take 4) "HAM" :=
  claim4_overtakes_pair_count_and_monotone exPositionLaps "HAM" 2 4 (by decide)

theorem positions_gained_cases (ps : List ℚ) :
    positions_gained ps = max 0 (ps.headD 0 - ps.getLastD 0) ∧
    0 ≤ positions_gained ps ∧
    (ps.length ≤ 1 → positions_gained ps = 0) := by
  match ps with
  | [] => refine ⟨?_, le_refl 0, fun _ => rfl⟩; simp [positions_gained]
  | [a] =>
    refine ⟨?_, ?_, fun _ => rfl⟩ <;> simp [positions_gained]
  | a :: b :: t =>
    have hlen : 1 < (a :: b :: t).length := by simp [List.length_cons]
    unfold positions_gained
    rw [if_pos hlen]
    exact ⟨rfl, le_max_left 0 _, fun hc => absurd hlen (by omega)⟩

/-- C5: the `PositionsGained` value of `process_speed_data` equals
`max 0 (first non-null position − last non-null position)`, is never
negative, and is 0 for drivers with fewer than two position records. -/
theorem claim5_positions_gained_formula (laps : List Lap) (d : String) :
    driverPositionsGained laps d =
      max 0 ((positionSeq laps d).headD 0 - (positionSeq laps d).getLastD 0) ∧
    0 ≤ driverPositionsGained laps d ∧
    ((positionSeq laps d).length ≤ 1 → driverPositionsGained laps d = 0) :=
  positions_gained_cases (positionSeq laps d)

/-- C5 (witness): the theorem applied to the 5 → 3 → 4 → 2 history (gains
floored at `max 0 (5 − 2) = 3`) and to a driver with no position records
(gain 0). -/
theorem claim5_witness :
    driverPositionsGained exPositionLaps "HAM" =
      max 0 ((positionSeq exPositionLaps "HAM").headD 0 -
        (positionSeq exPositionLaps "HAM").getLastD 0) ∧
    0 ≤ driverPositionsGained exPositionLaps "HAM" ∧
    driverPositionsGained exNoPositionLap "HAM" = 0 :=
  ⟨(claim5_positions_gained_formula exPositionLaps "HAM").1,
   (claim5_positions_gained_formula exPositionLaps "HAM").2.1,
   (claim5_positions_gained_formula exNoPositionLap "HAM").2.2 (by decide)⟩

/-! ### Lap Times & Weather Impact (pages/5, `plot_lap_times`) -/

/-- The pit filter at the top of `plot_lap_times`
(pages/5_Lap_Times_&_Weather_Impact.py, lines 116–118): drop every lap row
whose `PitOutTime` is non-null, then every row whose `PitInTime` is
non-null, before any driver's series is built. -/
def lapsAfterPitFilter (laps : List Lap) : List Lap :=
  (laps.filter (fun l => l.pitOutTime.isNone)).filter (fun l => l.pitInTime.isNone)

/-- The rows of the pit-filtered table that contribute a point to one
driver's series: the driver's laps whose `LapTime` is present and under 300
seconds (the loop at lines 132–138). -/
def retainedLaps (laps : List Lap) (d : String) : List Lap :=
  ((lapsAfterPitFilter laps).filter (fun l => decide (l.driver = d))).filter
    (fun l =>
      match l.lapTime with
      | some t => decide (t < 300)
      | none => false)

/-- `lap_times`: the y-values of one driver's plotted series. -/
def driverLapTimes (laps : List Lap) (d : String) : List ℚ :=
  (retainedLaps laps d).filterMap (·.lapTime)

/-- `lap_numbers = list(range(1, len(lap_times) + 1))` (line 144): the
x-values of one driver's plotted series. -/
def plot_lap_numbers (lapTimes : List ℚ) : List Nat :=
  (List.range lapTimes.length).map (· + 1)

/-- The x-values actually handed to the chart for one driver. -/
def driverLapX (laps : List Lap) (d : String) : List Nat :=
  plot_lap_numbers (driverLapTimes laps d)

theorem mem_lapsAfterPitFilter (laps : List Lap) (l : Lap) :
    l ∈ lapsAfterPitFilter laps ↔
      l ∈ laps ∧ l.pitOutTime = none ∧ l.pitInTime = none := by
  unfold lapsAfterPitFilter
  rw [List.mem_filter, List.mem_filter]
  constructor
  · rintro ⟨⟨hmem, hout⟩, hin⟩
    exact ⟨hmem, Option.isNone_iff_eq_none.mp hout, Option.isNone_iff_eq_none.mp hin⟩
  · rintro ⟨hmem, hout, hin⟩
    exact ⟨⟨hmem, by rw [hout]; rfl⟩, by rw [hin]; rfl⟩

theorem mem_retainedLaps (laps : List Lap) (d : String) (l : Lap)
    (h : l ∈ retainedLaps laps d) :
    l ∈ laps ∧ l.driver = d ∧ l.pitOutTime = none ∧ l.pitInTime = none ∧
      ∃ t, l.lapTime = some t ∧ t < 300 := by
  unfold retainedLaps at h
  rw [List.mem_filter] at h
  obtain ⟨h1, hlt⟩ := h
  rw [List.mem_filter] at h1
  obtain ⟨h2, hdrv⟩ := h1
  obtain ⟨hmem, hout, hin⟩ := (mem_lapsAfterPitFilter laps l).mp h2
  refine ⟨hmem, of_decide_eq_true hdrv, hout, hin, ?_⟩
  cases hl : l.lapTime with
  | none => rw [hl] at hlt; cases hlt
  | some t =>
    rw [hl] at hlt
    exact ⟨t, rfl, of_decide_eq_true hlt⟩

/-- C6: every lap-time value plotted by `plot_lap_times` comes from a lap
row of the session whose pit-in and pit-out timestamps are both null — laps
with either timestamp present are removed before any driver's series is
built. -/
theorem claim6_pit_laps_excluded (laps : List Lap) (d : String) (t : ℚ)
    (h : t ∈ driverLapTimes laps d) :
    ∃ l, l ∈ laps ∧ l.driver = d ∧ l.lapTime = some t ∧
      l.pitInTime = none ∧ l.pitOutTime = none := by
  obtain ⟨l, hl, hlt⟩ := List.mem_filterMap.mp h
  obtain ⟨hmem, hdrv, hout, hin, _, _, _⟩ := mem_retainedLaps laps d l hl
  exact ⟨l, hmem, hdrv, hlt, hin, hout⟩

/-- C9: every plotted lap-time value is strictly below 300 seconds — laps
with a lap time of 300 s or more are dropped from the series. -/
theorem claim9_laptimes_below_300 (laps : List Lap) (d : String) (t : ℚ)
    (h : t ∈ driverLapTimes laps d) : t < 300 := by
  obtain ⟨l, hl, hlt⟩ := List.mem_filterMap.mp h
  obtain ⟨_, _, _, _, u, hu, hu300⟩ := mem_retainedLaps laps d l hl
  rw [hlt] at hu
  obtain rfl : t = u := by simpa using hu
  exact hu300

/-- A four-lap table for the lap-time plot: lap 2 is an in-lap (pit-in
timestamp present) and lap 4 is over the 300 s cutoff, so only laps 1 and 3
are plotted. -/
def exWeatherLaps : List Lap :=
  [ ⟨"LEC", 1, none, none, none, some 95, none, none, none⟩,
    ⟨"LEC", 2, none, none, none, some 120, some 1000, none, none⟩,
    ⟨"LEC", 3, none, none, none, some 96, none, none, none⟩,
    ⟨"LEC", 4, none, none, none, some 400, none, none, none⟩ ]

/-- C6 (witness): the value 95 is plotted for the example table, and the
theorem recovers its source lap with both pit timestamps null. -/
theorem claim6_witness :
    (95 : ℚ) ∈ driverLapTimes exWeatherLaps "LEC" ∧
    ∃ l, l ∈ exWeatherLaps ∧ l.driver = "LEC" ∧ l.lapTime = some 95 ∧
      l.pitInTime = none ∧ l.pitOutTime = none :=
  ⟨by decide, claim6_pit_laps_excluded exWeatherLaps "LEC" 95 (by decide)⟩

/-- C9 (witness): the plotted value 96 of the example table is below
300 s. -/
theorem claim9_witness :
    (96 : ℚ) ∈ driverLapTimes exWeatherLaps "LEC" ∧ (96 : ℚ) < 300 :=
  ⟨by decide, claim9_laptimes_below_300 exWeatherLaps "LEC" 96 (by decide)⟩

/-- C10: the x-coordinates of a driver's plotted series are exactly the
consecutive integers 1..n for its n retained laps — position i carries
x-value i+1 regardless of the lap's true number, so on the example table
the second plotted point sits at x = 2 although it is lap 3 (excluded laps
leave no gap). -/
theorem claim10_x_axis_consecutive :
    (∀ laps d, (driverLapX laps d).length = (driverLapTimes laps d).length) ∧
    (∀ laps d i (h : i < (driverLapX laps d).length),
      (driverLapX laps d).get ⟨i, h⟩ = i + 1) ∧
    driverLapX exWeatherLaps "LEC" = [1, 2] ∧
    (retainedLaps exWeatherLaps "LEC").map Lap.lapNumber = [1, 3] := by
  refine ⟨?_, ?_, by decide, by decide⟩
  · intro laps d
    simp [driverLapX, plot_lap_numbers]
  · intro laps d i h
    simp only [driverLapX, plot_lap_numbers] at h ⊢
    rw [List.get_eq_getElem]
    simp

/-- C10 (witness): the second plotted point of the example table sits at
x = 2. -/
theorem claim10_witness :
    (driverLapX exWeatherLaps "LEC").get
      ⟨1, (by decide : 1 < (driverLapX exWeatherLaps "LEC").length)⟩ = 1 + 1 :=
  claim10_x_axis_consecutive.2.1 exWeatherLaps "LEC" 1 (by decide)

/-! ### Session loader (utils/session_data.py, `load_session`) -/

/-- A loaded fastf1 session as far as `load_session` inspects it: its lap
table. -/
structure SessionR where
  laps : List Lap
deriving DecidableEq

/-- Python truthiness of the `event` argument in `if event and _schedule is
not None:`: a non-`None`, non-empty string. -/
def eventTruthy (event : Option String) : Bool :=
  match event with
  | some e => !(decide (e = ""))
  | none => false

/-- The round-resolution step of `load_session` (utils/session_data.py,
lines 68–76): `_schedule[_schedule["EventName"] == event].iloc[0]` (an
`IndexError` escapes when no row matches), else the explicit round number,
else the raised `ValueError`.  The schedule is a list of
(event name, round number) rows. -/
def resolveRound (event : Option String) (round_number : Option Nat)
    (schedule : Option (List (String × Nat))) : Except String Nat :=
  if eventTruthy event && schedule.isSome then
    match (schedule.getD []).filter (fun row => decide (row.1 = event.getD "")) with
    | [] => Except.error "IndexError: single positional indexer is out-of-bounds"
    | row :: _ => Except.ok row.2
  else
    match round_number with
    | some r => Except.ok r
    | none =>
        Except.error "ValueError: Either event name with schedule or round number must be provided"

/-- The tail of `load_session` after `get_session(...).load()` came back:
a raised exception maps to `none` via the enclosing `try/except`, an empty
lap table maps to `none` via the explicit guard, and otherwise the session
is returned. -/
def sessionGuard (r : Except String SessionR) : Option SessionR :=
  match r with
  | Except.error _ => none
  | Except.ok s => if s.laps.isEmpty then none else some s

/-- `load_session(year, event, round_number, session_type, _schedule)`
(utils/session_data.py, lines 47–90).  The upstream
`fastf1.get_session(...).load()` chain is abstracted as `fetch year round
session_type`, an `Except` whose error constructor models any raised
exception; a failed round resolution (the raised `ValueError` or
`IndexError`) is likewise caught to `none`. -/
def load_session (year : Nat) (event : Option String) (round_number : Option Nat)
    (session_type : String) (schedule : Option (List (String × Nat)))
    (fetch : Nat → Nat → String → Except String SessionR) : Option SessionR :=
  match resolveRound event round_number schedule with
  | Except.error _ => none
  | Except.ok gpRound => sessionGuard (fetch year gpRound session_type)

theorem sessionGuard_none_or_some (r : Except String SessionR) :
    sessionGuard r = none ∨ ∃ s, sessionGuard r = some s ∧ s.laps ≠ [] := by
  cases r with
  | error e => exact Or.inl rfl
  | ok s =>
    cases hs : s.laps.isEmpty with
    | true => exact Or.inl (by simp [sessionGuard, hs])
    | false =>
      refine Or.inr ⟨s, by simp [sessionGuard, hs], ?_⟩
      intro hnil
      rw [hnil] at hs
      cases hs

/-- C7: `load_session` always returns either a loaded session or `none`:
it yields `none` on a missing-parameter `ValueError`, on any upstream
exception, and on an empty lap table, and any returned session has a
non-empty lap table — being a total function into `Option`, the embedding
propagates no exception to its caller. -/
theorem claim7_load_session_total (year : Nat) (event : Option String)
    (round_number : Option Nat) (session_type : String)
    (schedule : Option (List (String × Nat)))
    (fetch : Nat → Nat → String → Except String SessionR) :
    (load_session year event round_number session_type schedule fetch = none ∨
      ∃ s, load_session year event round_number session_type schedule fetch = some s ∧
        s.laps ≠ []) ∧
    ((eventTruthy event && schedule.isSome) = false → round_number = none →
      load_session year event round_number session_type schedule fetch = none) ∧
    ((∀ g, ∃ e, fetch year g session_type = Except.error e) →
      load_session year event round_number session_type schedule fetch = none) ∧
    ((∀ g s, fetch year g session_type = Except.ok s → s.laps = []) →
      load_session year event round_number session_type schedule fetch = none) := by
  refine ⟨?_, ?_, ?_, ?_⟩
  · unfold load_session
    cases hr : resolveRound event round_number schedule with
    | error e => exact Or.inl rfl
    | ok g => exact sessionGuard_none_or_some (fetch year g session_type)
  · intro hfalse hrn
    unfold load_session resolveRound
    rw [if_neg (by rw [hfalse]; exact Bool.false_ne_true), hrn]
  · intro hfail
    unfold load_session
    cases hr : resolveRound event round_number schedule with
    | error e => rfl
    | ok g =>
      obtain ⟨e, he⟩ := hfail g
      show sessionGuard (fetch year g session_type) = none
      rw [he]
      rfl
  · intro hempty
    unfold load_session
    cases hr : resolveRound event round_number schedule with
    | error e => rfl
    | ok g =>
      show sessionGuard (fetch year g session_type) = none
      cases hf : fetch year g session_type with
      | error e => rfl
      | ok s =>
        have hnil : s.laps = [] := hempty g s hf
        simp [sessionGuard, hnil]

/-- A fetch environment that always succeeds with a one-lap session. -/
def exFetch : Nat → Nat → String → Except String SessionR :=
  fun _ _ _ => Except.ok ⟨[⟨"VER", 1, none, none, none, some 90, none, none, some 1⟩]⟩

/-- C7 (witness): with a round number given and a successful fetch the
loader returns a session or `none`; with no event, schedule or round number
it returns `none`. -/
theorem claim7_witness :
    (load_session 2024 none (some 5) "R" none exFetch = none ∨
      ∃ s, load_session 2024 none (some 5) "R" none exFetch = some s ∧ s.laps ≠ []) ∧
    load_session 2024 none none "R" none exFetch = none :=
  ⟨(claim7_load_session_total 2024 none (some 5) "R" none exFetch).1,
   (claim7_load_session_total 2024 none none "R" none exFetch).2.1 (by decide) rfl⟩

/-! ### Driver telemetry comparison (pages/1,
`plot_multi_driver_telemetry_comparison`) -/

/-- What the telemetry page can observe about one roster entry of a
session: the abbreviation `session.get_driver(d)["Abbreviation"]`, the
driver's laps `session.laps.pick_drivers(...)`, the team name, the columns
of the fastest lap's telemetry frame, and whether fetching that telemetry
raises (`pick_fastest()` / `get_telemetry()` can throw). -/
structure TelemetryDriver where
  abbr : String
  laps : List Lap
  team : String
  telemetryCols : List String
  raises : Bool
deriving DecidableEq

/-- One trace added by `fig.add_trace`: its legend name (the driver
abbreviation) and its line-dash style. -/
structure Trace where
  name : String
  dash : String
deriving DecidableEq

/-- `team_drivers[team] += 1` with the `if team not in team_drivers:
team_drivers[team] = 0` initialisation. -/
def updateTeamCount (tc : List (String × Nat)) (team : String) :
    List (String × Nat) :=
  if (tc.find? (fun p => decide (p.1 = team))).isSome then
    tc.map (fun p => if decide (p.1 = team) then (p.1, p.2 + 1) else p)
  else tc ++ [(team, 1)]

/-- The per-driver loop of `plot_multi_driver_telemetry_comparison`
(pages/1_Driver_Telemetry_Comparison.py, lines 94–145), returning the
accumulated traces and the `missing_data_drivers` list.  In source order: a
driver absent from the roster, one with an empty lap table, one whose
telemetry fetch raises (caught by the per-driver `except`), and one whose
telemetry lacks the chosen metric all go to the missing list and the loop
continues; otherwise a trace is added, dashed for a team's second driver. -/
def telemLoop (roster : List TelemetryDriver) (metric : String) :
    List (String × Nat) → List String → List Trace × List String
  | _, [] => ([], [])
  | tc, abbr :: rest =>
    match roster.find? (fun td => decide (td.abbr = abbr)) with
    | none =>
      let r := telemLoop roster metric tc rest
      (r.1, abbr :: r.2)
    | some td =>
      if td.laps.isEmpty then
        let r := telemLoop roster metric tc rest
        (r.1, abbr :: r.2)
      else if td.raises then
        let r := telemLoop roster metric tc rest
        (r.1, abbr :: r.2)
      else if !(td.telemetryCols.contains metric) then
        let r := telemLoop roster metric tc rest
        (r.1, abbr :: r.2)
      else
        let cnt := ((tc.find? (fun p => decide (p.1 = td.team))).map Prod.snd).getD 0
        let r := telemLoop roster metric (updateTeamCount tc td.team) rest
        (⟨abbr, if cnt = 0 then "solid" else "dash"⟩ :: r.1, r.2)

/-- `plot_multi_driver_telemetry_comparison(session, drivers, metric, …)`:
run the per-driver loop over the selection with an empty team-style
dictionary. -/
def plot_multi_driver_telemetry_comparison (roster : List TelemetryDriver)
    (drivers : List String) (metric : String) : List Trace × List String :=
  telemLoop roster metric [] drivers

theorem telemLoop_missing_of_failure (roster : List TelemetryDriver)
    (metric : String) (d : String) (drivers : List String) (hd : d ∈ drivers)
    (hfail : ∀ td ∈ roster, td.abbr = d →
      td.laps = [] ∨ td.raises = true ∨ td.telemetryCols.contains metric = false) :
    ∀ tc, d ∈ (telemLoop roster metric tc drivers).2 := by
  induction drivers with
  | nil => cases hd
  | cons abbr rest ih =>
    intro tc
    cases hfind : roster.find? (fun td => decide (td.abbr = abbr)) with
    | none =>
      simp only [telemLoop, hfind]
      rcases List.mem_cons.mp hd with rfl | hdr
      · exact List.mem_cons_self _ _
      · exact List.mem_cons_of_mem _ (ih hdr tc)
    | some td =>
      cases hemp : td.laps.isEmpty with
      | true =>
        simp only [telemLoop, hfind, hemp, if_true]
        rcases List.mem_cons.mp hd with rfl | hdr
        · exact List.mem_cons_self _ _
        · exact List.mem_cons_of_mem _ (ih hdr tc)
      | false =>
        cases hra : td.raises with
        | true =>
          simp only [telemLoop, hfind, hemp, hra, Bool.false_eq_true, if_false, if_true]
          rcases List.mem_cons.mp hd with rfl | hdr
          · exact List.mem_cons_self _ _
          · exact List.mem_cons_of_mem _ (ih hdr tc)
        | false =>
          cases hcol : td.telemetryCols.contains metric with
          | false =>
            simp only [telemLoop, hfind, hemp, hra, hcol, Bool.false_eq_true, if_false,
              Bool.not_false, if_true]
            rcases List.mem_cons.mp hd with rfl | hdr
            · exact List.mem_cons_self _ _
            · exact List.mem_cons_of_mem _ (ih hdr tc)
          | true =>
            simp only [telemLoop, hfind, hemp, hra, hcol, Bool.false_eq_true, if_false,
              Bool.not_true]
            have habbr : abbr ≠ d := by
              intro he
              have hmem := List.mem_of_find?_eq_some hfind
              have hpred := List.find?_some hfind
              have hab : td.abbr = abbr := of_decide_eq_true hpred
              rcases hfail td hmem (by rw [hab, he]) with h | h | h
              · rw [h] at hemp; cases hemp
              · rw [h] at hra; cases hra
              · rw [h] at hcol; cases hcol
            have hdr : d ∈ rest := by
              rcases List.mem_cons.mp hd with rfl | hdr
              · exact absurd rfl habbr
              · exact hdr
            exact ih hdr (updateTeamCount tc td.team)

theorem telemLoop_covers (roster : List TelemetryDriver) (metric : String)
    (d : String) (drivers : List String) (hd : d ∈ drivers) :
    ∀ tc, d ∈ (telemLoop roster metric tc drivers).2 ∨
      d ∈ (telemLoop roster metric tc drivers).1.map Trace.name := by
  induction drivers with
  | nil => cases hd
  | cons abbr rest ih =>
    intro tc
    cases hfind : roster.find? (fun td => decide (td.abbr = abbr)) with
    | none =>
      simp only [telemLoop, hfind]
      rcases List.mem_cons.mp hd with rfl | hdr
      · exact Or.inl (List.mem_cons_self _ _)
      · rcases ih hdr tc with h | h
        · exact Or.inl (List.mem_cons_of_mem _ h)
        · exact Or.inr h
    | some td =>
      cases hemp : td.laps.isEmpty with
      | true =>
        simp only [telemLoop, hfind, hemp, if_true]
        rcases List.mem_cons.mp hd with rfl | hdr
        · exact Or.inl (List.mem_cons_self _ _)
        · rcases ih hdr tc with h | h
          · exact Or.inl (List.mem_cons_of_mem _ h)
          · exact Or.inr h
      | false =>
        cases hra : td.raises with
        | true =>
          simp only [telemLoop, hfind, hemp, hra, Bool.false_eq_true, if_false, if_true]
          rcases List.mem_cons.mp hd with rfl | hdr
          · exact Or.inl (List.mem_cons_self _ _)
          · rcases ih hdr tc with h | h
            · exact Or.inl (List.mem_cons_of_mem _ h)
            · exact Or.inr h
        | false =>
          cases hcol : td.telemetryCols.contains metric with
          | false =>
            simp only [telemLoop, hfind, hemp, hra, hcol, Bool.false_eq_true, if_false,
              Bool.not_false, if_true]
            rcases List.mem_cons.mp hd with rfl | hdr
            · exact Or.inl (List.mem_cons_self _ _)
            · rcases ih hdr tc with h | h
              · exact Or.inl (List.mem_cons_of_mem _ h)
              · exact Or.inr h
          | true =>
            simp only [telemLoop, hfind, hemp, hra, hcol, Bool.false_eq_true, if_false,
              Bool.not_true, List.map_cons]
            rcases List.mem_cons.mp hd with rfl | hdr
            · exact Or.inr (List.mem_cons_self _ _)
            · rcases ih hdr (updateTeamCount tc td.team) with h | h
              · exact Or.inl h
              · exact Or.inr (List.mem_cons_of_mem _ h)

/-- C8: a selected driver whose lap table is empty — and likewise one whose
fastest-lap telemetry lacks the chosen metric, or whose per-driver
processing raises — lands in the returned missing-data list of
`plot_multi_driver_telemetry_comparison`, and every selected driver is
still processed: each one ends up either in the missing list or named by a
trace, so no per-driver failure aborts the builder (the embedding is a
total function, hence it raises nothing itself). -/
theorem claim8_failing_drivers_missing (roster : List TelemetryDriver)
    (drivers : List String) (metric : String) (d : String) (hd : d ∈ drivers)
    (hfail : ∀ td ∈ roster, td.abbr = d →
      td.laps = [] ∨ td.raises = true ∨ td.telemetryCols.contains metric = false) :
    d ∈ (plot_multi_driver_telemetry_comparison roster drivers metric).2 ∧
    ∀ e ∈ drivers,
      e ∈ (plot_multi_driver_telemetry_comparison roster drivers metric).2 ∨
      e ∈ (plot_multi_driver_telemetry_comparison roster drivers metric).1.map
        Trace.name :=
  ⟨telemLoop_missing_of_failure roster metric d drivers hd hfail [],
   fun e he => telemLoop_covers roster metric e drivers he []⟩

/-- A four-driver roster exercising each failure class: "VER" has laps and
Speed telemetry, "ALO" has an empty lap table, "STR" has laps but the
telemetry fetch raises, "HAM" has laps and telemetry but no Speed
column. -/
def exRoster : List TelemetryDriver :=
  [ ⟨"VER", [⟨"VER", 1, none, none, none, some 90, none, none, some 1⟩],
      "Red Bull Racing", ["Speed", "RPM"], false⟩,
    ⟨"ALO", [], "Aston Martin", [], false⟩,
    ⟨"STR", [⟨"STR", 1, none, none, none, some 93, none, none, some 8⟩],
      "Aston Martin", ["Speed"], true⟩,
    ⟨"HAM", [⟨"HAM", 1, none, none, none, some 91, none, none, some 3⟩],
      "Mercedes", ["RPM"], false⟩ ]

/-- C8 (witness): plotting Speed for the selection ["VER", "ALO", "STR",
"HAM"], the lap-less "ALO", the raising "STR" and the metric-less "HAM" are
all reported missing, and every selected driver is accounted for. -/
theorem claim8_witness :
    "ALO" ∈ (plot_multi_driver_telemetry_comparison exRoster
      ["VER", "ALO", "STR", "HAM"] "Speed").2 ∧
    "STR" ∈ (plot_multi_driver_telemetry_comparison exRoster
      ["VER", "ALO", "STR", "HAM"] "Speed").2 ∧
    "HAM" ∈ (plot_multi_driver_telemetry_comparison exRoster
      ["VER", "ALO", "STR", "HAM"] "Speed").2 ∧
    ∀ e ∈ ["VER", "ALO", "STR", "HAM"],
      e ∈ (plot_multi_driver_telemetry_comparison exRoster
        ["VER", "ALO", "STR", "HAM"] "Speed").2 ∨
      e ∈ (plot_multi_driver_telemetry_comparison exRoster
        ["VER", "ALO", "STR", "HAM"] "Speed").1.map Trace.name :=
  ⟨(claim8_failing_drivers_missing exRoster ["VER", "ALO", "STR", "HAM"] "Speed" "ALO"
      (by decide) (by decide)).1,
   (claim8_failing_drivers_missing exRoster ["VER", "ALO", "STR", "HAM"] "Speed" "STR"
      (by decide) (by decide)).1,
   (claim8_failing_drivers_missing exRoster ["VER", "ALO", "STR", "HAM"] "Speed" "HAM"
      (by decide) (by decide)).1,
   (claim8_failing_drivers_missing exRoster ["VER", "ALO", "STR", "HAM"] "Speed" "ALO"
      (by decide) (by decide)).2⟩
